import Mathlib

/-!
Shallow embedding of the redaction rule engine from
`src/apps/python-semantic/redact.py` (functions `generate_rule_actions`,
`slide_in_scope`, `apply_text_action`, `convert_llm_response_to_actions`).

Modelling conventions:
* Python strings are Lean `String`s; all operations are hand-rolled over
  `List Char` so that every definition reduces in the kernel.
  `pyStrip` models `str.strip()` (whitespace set restricted to
  `Char.isWhitespace`), `pyLower` models `str.lower()` (ASCII case map, the
  fragment exercised by the engine's mode strings and `re.IGNORECASE`).
* Loosely-typed dict fields are `Option`s: `none` covers an absent key and
  the falsy / non-`str` values that the source treats identically at that
  use site (noted per field).  Values only ever passed to `int(...)` are
  modelled by their coercion result `Option Int` (`none` = `TypeError` /
  `ValueError`).
* Python exceptions that can escape the engine are modelled with
  `Except PyErr`.  `re.sub` replacement templates are parsed faithfully for
  the zero-capture-group patterns the keyword path compiles
  (`re.escape(token)`): group references other than `\g<0>` and bad escapes
  raise `re.error` exactly as CPython does (named escapes `\N{...}` and
  lone-surrogate `\u` escapes are conservatively rejected by the model).
* `re.compile(pattern, re.IGNORECASE)` for arbitrary user patterns is an
  external engine, represented by a `RegexEngine` record: whether the
  pattern compiles, whether it matches a text, and the result of
  `compiled.sub(replacement, text)` (`none` = `re.error` raised during the
  substitution, which the source catches).
-/

namespace Redact

/-- Python `re.error`, the only exception class modelled. -/
inductive PyErr where
  | reError (msg : String)
deriving DecidableEq, Repr

/-- ASCII lower-casing of a character list (model of `str.lower()` and of the
`re.IGNORECASE` comparison for the literal patterns the engine builds). -/
def pyLowerL (l : List Char) : List Char := l.map Char.toLower

/-- Strip leading whitespace characters. -/
def pyStripLeftL : List Char → List Char
  | [] => []
  | c :: cs => if c.isWhitespace then pyStripLeftL cs else c :: cs

/-- Model of Python `str.strip()`. -/
def pyStripL (l : List Char) : List Char :=
  (pyStripLeftL (pyStripLeftL l).reverse).reverse

/-- String-level wrapper for `str.strip()`. -/
def pyStrip (s : String) : String := ⟨pyStripL s.data⟩

/-- String-level wrapper for `str.lower()`. -/
def pyLower (s : String) : String := ⟨pyLowerL s.data⟩

/-- Case-insensitive "tok is a prefix of s" test over character lists. -/
def ciPre : List Char → List Char → Bool
  | [], _ => true
  | _ :: _, [] => false
  | a :: as, b :: bs => (a.toLower == b.toLower) && ciPre as bs

/-- Case-insensitive substring search over character lists: model of
`re.compile(re.escape(tok), re.IGNORECASE).search(s)` being non-`None`. -/
def ciSearchL (tok : List Char) : List Char → Bool
  | [] => ciPre tok []
  | c :: cs => ciPre tok (c :: cs) || ciSearchL tok cs

/-- String-level case-insensitive literal search. -/
def ciSearch (tok s : String) : Bool := ciSearchL tok.data s.data

/-- One piece of a parsed `re.sub` replacement template: a literal character
or a reference to group 0 (the whole match). -/
inductive TItem where
  | lit (c : Char)
  | group0
deriving DecidableEq, Repr

/-- Octal digit test (code points of `'0'`–`'7'`). -/
def isOctalChar (c : Char) : Bool := 48 ≤ c.toNat && c.toNat ≤ 55

/-- Hexadecimal digit value, computed on code points (digits, then the
lowercase and uppercase letter ranges). -/
def hexVal (c : Char) : Option Nat :=
  let n := c.toNat
  if 48 ≤ n && n ≤ 57 then some (n - 48)
  else if 97 ≤ n && n ≤ 102 then some (n - 87)
  else if 65 ≤ n && n ≤ 70 then some (n - 55)
  else none

/-- Value of a list of hex digits (already validated), accumulated head
first. -/
def hexValue : List Char → Nat → Nat
  | [], acc => acc
  | c :: cs, acc => hexValue cs (acc * 16 + (hexVal c).getD 0)

/-- Value of a list of octal digits, accumulated head first. -/
def octValue : List Char → Nat → Nat
  | [], acc => acc
  | c :: cs, acc => octValue cs (acc * 8 + (c.toNat - 48))

/-- Valid Unicode scalar value test (Lean `Char`s cannot hold surrogates). -/
def validScalar (n : Nat) : Bool := n < 0xd800 || (0xdfff < n && n < 0x110000)

/-- Parser for a `re.sub` replacement template against a pattern with zero
capture groups (the keyword path compiles `re.escape(token)`, which has
none).  Faithful to CPython `sre_parse.parse_template`:

* `\g<0>` (any number of zeros) refers to the whole match; any other group
  number or any group name is `re.error` (`invalid group reference` /
  `unknown group name`) since the pattern has no groups;
* `\1` … `\99` are group references, hence `re.error` here;
* `\0` starts an octal escape of up to two further octal digits;
* `\a \b \f \n \r \t \v \\` are the standard escapes, `\x`/`\u`/`\U` take
  2/4/8 hex digits;
* `\` followed by any other ASCII letter is `re.error` (`bad escape`);
* `\` followed by a non-alphanumeric character keeps both characters;
* a trailing lone `\` is `re.error`.

The `fuel` argument only bounds recursion; it is always called with more
fuel than characters, and every step consumes at least one character. -/
def parseTemplate (fuel : Nat) (l : List Char) : Except PyErr (List TItem) :=
  match fuel with
  | 0 => .error (.reError "fuel exhausted (unreachable)")
  | fuel + 1 =>
    match l with
    | [] => .ok []
    | '\\' :: rest =>
      match rest with
      | [] => .error (.reError "bad escape (end of pattern)")
      | e :: rest2 =>
        if e = 'g' then
          match rest2 with
          | '<' :: rest3 =>
            let name := rest3.takeWhile (fun c => c ≠ '>')
            match rest3.drop name.length with
            | '>' :: rest4 =>
              if name ≠ [] && name.all Char.isDigit then
                if name.all (fun c => c = '0') then
                  (parseTemplate fuel rest4).map (fun ts => .group0 :: ts)
                else .error (.reError "invalid group reference")
              else .error (.reError "bad character in group name")
            | _ => .error (.reError "missing >, unterminated name")
          | _ => .error (.reError "missing <")
        else if e = '\\' then
          (parseTemplate fuel rest2).map (fun ts => .lit '\\' :: ts)
        else if e = '0' then
          let ds := (rest2.takeWhile isOctalChar).take 2
          (parseTemplate fuel (rest2.drop ds.length)).map
            (fun ts => .lit (Char.ofNat (octValue ds 0)) :: ts)
        else if e.isDigit then .error (.reError "invalid group reference")
        else if e = 'a' then
          (parseTemplate fuel rest2).map (fun ts => .lit '\x07' :: ts)
        else if e = 'b' then
          (parseTemplate fuel rest2).map (fun ts => .lit '\x08' :: ts)
        else if e = 'f' then
          (parseTemplate fuel rest2).map (fun ts => .lit '\x0c' :: ts)
        else if e = 'n' then
          (parseTemplate fuel rest2).map (fun ts => .lit '\n' :: ts)
        else if e = 'r' then
          (parseTemplate fuel rest2).map (fun ts => .lit '\x0d' :: ts)
        else if e = 't' then
          (parseTemplate fuel rest2).map (fun ts => .lit '\t' :: ts)
        else if e = 'v' then
          (parseTemplate fuel rest2).map (fun ts => .lit '\x0b' :: ts)
        else if e = 'x' then
          let hs := (rest2.take 2).filterMap hexVal
          if hs.length = 2 then
            (parseTemplate fuel (rest2.drop 2)).map
              (fun ts => .lit (Char.ofNat (hexValue (rest2.take 2) 0)) :: ts)
          else .error (.reError "incomplete escape")
        else if e = 'u' then
          let hs := (rest2.take 4).filterMap hexVal
          if hs.length = 4 && validScalar (hexValue (rest2.take 4) 0) then
            (parseTemplate fuel (rest2.drop 4)).map
              (fun ts => .lit (Char.ofNat (hexValue (rest2.take 4) 0)) :: ts)
          else .error (.reError "bad escape")
        else if e = 'U' then
          let hs := (rest2.take 8).filterMap hexVal
          if hs.length = 8 && validScalar (hexValue (rest2.take 8) 0) then
            (parseTemplate fuel (rest2.drop 8)).map
              (fun ts => .lit (Char.ofNat (hexValue (rest2.take 8) 0)) :: ts)
          else .error (.reError "bad escape")
        else if e = 'N' then .error (.reError "named escape (not modelled)")
        else if e.isAlpha then .error (.reError "bad escape")
        else
          (parseTemplate fuel rest2).map (fun ts => .lit '\\' :: .lit e :: ts)
    | c :: rest => (parseTemplate fuel rest).map (fun ts => .lit c :: ts)

/-- Expand a parsed template at one match site (`matched` is the actual
matched slice of the subject text, preserving its original case). -/
def expandItems (matched : List Char) (items : List TItem) : List Char :=
  items.foldr
    (fun it acc =>
      (match it with
       | .lit c => [c]
       | .group0 => matched) ++ acc)
    []

/-- Replace every leftmost non-overlapping case-insensitive occurrence of the
non-empty token `t0 :: trest` in the subject, expanding the template at each
match.  Model of `compiled.sub` for the literal pattern `re.escape(token)`.
Structural recursion on `fuel` so that the definition reduces in the kernel;
every step consumes at least one subject character, so any fuel above the
subject length is enough. -/
def ciSubGo (fuel : Nat) (t0 : Char) (trest : List Char)
    (items : List TItem) (s : List Char) : List Char :=
  match fuel with
  | 0 => s
  | fuel + 1 =>
    match s with
    | [] => []
    | c :: cs =>
      if ciPre (t0 :: trest) (c :: cs) then
        expandItems ((c :: cs).take (trest.length + 1)) items ++
          ciSubGo fuel t0 trest items ((c :: cs).drop (trest.length + 1))
      else c :: ciSubGo fuel t0 trest items cs

/-- Model of `re.compile(re.escape(tok), re.IGNORECASE).sub(repl, text)`:
parses the replacement template (raising `re.error` on an invalid one) and
substitutes all matches.  The empty-token case is unreachable: callers filter
tokens through `strip()`-non-empty. -/
def ciSubAll (tok repl text : String) : Except PyErr String :=
  match parseTemplate (repl.data.length + 1) repl.data with
  | .error e => .error e
  | .ok items =>
    match tok.data with
    | [] => .ok text
    | t :: ts => .ok ⟨ciSubGo (text.data.length + 1) t ts items text.data⟩

/-!
Data model.  Field-by-field correspondence with the dicts consumed by
`generate_rule_actions` / `slide_in_scope` / `apply_text_action`
(`redact.py` lines 402–559).
-/

/-- The `scope["slides"]` dict.  `list` entries are modelled by their
`int(...)` coercion result; `fromVal` / `toVal` model the `"from"` / `"to"`
keys (outer `none` = key absent / value `None`, `some none` = present but
not coercible, `some (some n)` = coerces to `n`). -/
structure SlidesScope where
  list : Option (List (Option Int))
  fromVal : Option (Option Int)
  toVal : Option (Option Int)
deriving DecidableEq, Repr

/-- An action scope.  `none` at the outer `Option Scope` use sites covers a
missing / falsy / non-dict scope; `slides = none` covers a missing / falsy /
non-dict `"slides"` value. -/
structure Scope where
  slides : Option SlidesScope
deriving DecidableEq, Repr

/-- The `action["match"]` dict.  All keys optional; `tokens = none` covers a
missing or falsy `"tokens"` value, and each entry is `none` when it is not a
`str` (the source filters with `isinstance(t, str)`). -/
structure MatchSpec where
  mode : Option String
  text : Option String
  pattern : Option String
  tokens : Option (List (Option String))
deriving DecidableEq, Repr

/-- An action dict.  The engine reads only `scope`, `match`, `replacement`
and `metadata`; the `id` and `type` keys written by the producers are never
read, so they are not modelled.  `metadata` is an opaque payload the engine
passes through, modelled by a tag string; `none` covers an absent or falsy
value (the emission site tests its truthiness).  The Lean field `match_`
models the `"match"` key (`match` is a Lean keyword). -/
structure Action where
  scope : Option Scope
  match_ : Option MatchSpec
  replacement : Option String
  metadata : Option String
deriving DecidableEq, Repr

/-- The empty dict that `action.get("match") or {}` falls back to. -/
def emptyMatch : MatchSpec := ⟨none, none, none, none⟩

/-- A paragraph dict.  `text = none` covers a missing / falsy / non-`str`
`"text"` value (all skipped identically by the walker). -/
structure Paragraph where
  text : Option String
deriving DecidableEq, Repr

/-- An element dict.  `bbox` is an opaque payload carried into results,
modelled by a tag string. -/
structure Element where
  type : Option String
  key : Option String
  bbox : Option String
  paragraphs : List Paragraph
deriving DecidableEq, Repr

/-- A slide dict.  `index` models `slide.get("index")` followed by
`int(...)`: outer `none` = key absent / `None`, `some none` = present but
not coercible, `some (some i)` = coerces to `i`. -/
structure Slide where
  index : Option (Option Int)
  elements : List Element
deriving DecidableEq, Repr

/-- A deck: `deck.get("slides") or []`. -/
structure Deck where
  slides : List Slide
deriving DecidableEq, Repr

/-- An emitted edit record (`results.append({...})`, lines 466–477).
`metadata = none` when the applied action's metadata was absent or falsy
(the source only attaches it when truthy). -/
structure RuleActionResult where
  slide_no : Int
  element_key : String
  bbox : Option String
  original_text : String
  new_text : String
  metadata : Option String
deriving DecidableEq, Repr

/-- External regex engine: the behaviour of `re.compile(pattern,
re.IGNORECASE)` for arbitrary user patterns (the regex match mode).
`compileOk` is whether compilation succeeds, `search p t` whether the
compiled pattern matches somewhere in `t`, and `sub p repl t` the result of
`compiled.sub(repl, t)` (`none` = `re.error` raised while substituting,
which the source catches). -/
structure RegexEngine where
  compileOk : String → Bool
  search : String → String → Bool
  sub : String → String → String → Option String

/-- Model of `slide_in_scope` (`redact.py` lines 482–517), line by line:
no / falsy / non-dict scope or slides is unrestricted; a non-empty `"list"`
is normalised by `int(...)` coercion (dropping non-coercible entries) and
decides membership only when the normalised list is non-empty, otherwise
control falls through to the `"from"`/`"to"` range check, whose defaults are
`1` and the tested `slide_no`. -/
def slide_in_scope (scope : Option Scope) (slide_no : Int) : Bool :=
  match scope with
  | none => true
  | some sc =>
    match sc.slides with
    | none => true
    | some sl =>
      let listVerdict : Option Bool :=
        match sl.list with
        | some entries =>
          if entries.length > 0 then
            let normalized := entries.filterMap id
            if normalized ≠ [] && normalized.contains slide_no then some true
            else if normalized ≠ [] then some false
            else none
          else none
        | none => none
      match listVerdict with
      | some b => b
      | none =>
        if sl.fromVal ≠ none || sl.toVal ≠ none then
          let start := (sl.fromVal.getD none).getD 1
          let stop := (sl.toVal.getD none).getD slide_no
          if slide_no < start || slide_no > stop then false else true
        else true

/-- Effective replacement string: `action.get("replacement")` defaulting to
the canonical marker when absent, non-`str`, or blank (lines 521–523). -/
def effReplacement (a : Action) : String :=
  match a.replacement with
  | some s => if pyStrip s = "" then "[REDACTED]" else s
  | none => "[REDACTED]"

/-- Effective mode inside `apply_text_action`:
`(match.get("mode") or "keyword").lower()` (line 526).  A missing or empty
(falsy) mode falls back to `"keyword"`. -/
def applyMode (m : MatchSpec) : String :=
  pyLower (match m.mode with
           | some s => if s = "" then "keyword" else s
           | none => "keyword")

/-- Mode string used by `_action_priority` and by the exact-mode
short-circuit test: `(action.get("match") or {}).get("mode", "").lower()`
(lines 407 and 461; note the `""` default, unlike `applyMode`). -/
def priMode (a : Action) : String :=
  pyLower (((a.match_.getD emptyMatch).mode).getD "")

/-- Sort priority of an action (`_action_priority`, lines 406–412). -/
def action_priority (a : Action) : Nat :=
  if priMode a = "exact" then 0 else if priMode a = "regex" then 1 else 2

/-- Token list preparation (line 551):
`[t.strip() for t in tokens if isinstance(t, str) and t.strip()]`. -/
def effTokens (m : MatchSpec) : List String :=
  (m.tokens.getD []).filterMap
    (fun o =>
      match o with
      | some t => if pyStrip t = "" then none else some (pyStrip t)
      | none => none)

/-- Keyword-mode loop over tokens (lines 553–557): for each token, if a
case-insensitive literal search hits the current text, substitute all
occurrences (which can raise `re.error` on an invalid replacement template —
this branch has no `try`) and set `changed`. -/
def keywordPass (repl : String) : List String → String → Bool →
    Except PyErr (String × Bool)
  | [], cur, ch => .ok (cur, ch)
  | tok :: rest, cur, ch =>
    if ciSearch tok cur then
      match ciSubAll tok repl cur with
      | .error e => .error e
      | .ok u => keywordPass repl rest u true
    else keywordPass repl rest cur ch

/-- Model of `apply_text_action` (lines 520–559).  Exact mode trims and
compares whole texts; regex mode consults the external engine with all
`re.error`s caught (lines 541–547); every other mode is the keyword path. -/
def apply_text_action (E : RegexEngine) (text : String) (a : Action) :
    Except PyErr (String × Bool) :=
  let replacement := effReplacement a
  let m := a.match_.getD emptyMatch
  let mode := applyMode m
  if mode = "exact" then
    match m.text with
    | some et =>
      if et ≠ "" && (pyStrip text == pyStrip et) then .ok (replacement, true)
      else .ok (text, false)
    | none => .ok (text, false)
  else if mode = "regex" then
    match m.pattern with
    | some p =>
      if pyStrip p ≠ "" then
        if E.compileOk p then
          if E.search p text then
            match E.sub p replacement text with
            | some u => .ok (u, u != text)
            | none => .ok (text, false)
          else .ok (text, false)
        else .ok (text, false)
      else .ok (text, false)
    | none => .ok (text, false)
  else
    keywordPass replacement (effTokens m) text false

/-- Model of `ordered_actions = sorted(actions, key=_action_priority)`
(line 414).  Python's `sorted` is stable, and `_action_priority` maps into
`{0, 1, 2}`, so the stable sort is exactly the concatenation of the three
priority classes in input order; the theorem for C1 proves sortedness and
stability of this definition explicitly. -/
def sortActions (actions : List Action) : List Action :=
  actions.filter (fun a => action_priority a == 0) ++
    actions.filter (fun a => action_priority a == 1) ++
    actions.filter (fun a => action_priority a == 2)

/-- Per-paragraph fold over the ordered actions (lines 449–463): skip
out-of-scope actions; on a change update the current text and remember the
action's metadata; a change by an exact-mode action breaks out of the
loop. -/
def applyOrdered (E : RegexEngine) (slide_no : Int) :
    List Action → String → Bool → Option String →
      Except PyErr (String × Bool × Option String)
  | [], t, ch, md => .ok (t, ch, md)
  | a :: rest, t, ch, md =>
    if slide_in_scope a.scope slide_no then
      match apply_text_action E t a with
      | .error e => .error e
      | .ok (u, true) =>
        if priMode a = "exact" then .ok (u, true, a.metadata)
        else applyOrdered E slide_no rest u true a.metadata
      | .ok (_, false) => applyOrdered E slide_no rest t ch md
    else applyOrdered E slide_no rest t ch md

/-- Processing of one paragraph (lines 440–477): skip missing / falsy /
non-`str` text, run the ordered actions, and emit a result only when
`changed and new_text != original_text`. -/
def runParagraph (E : RegexEngine) (ordered : List Action) (slide_no : Int)
    (element_key : String) (bbox : Option String) (p : Paragraph) :
    Except PyErr (List RuleActionResult) :=
  match p.text with
  | none => .ok []
  | some s =>
    if s = "" then .ok []
    else
      match applyOrdered E slide_no ordered s false none with
      | .error e => .error e
      | .ok (t, ch, md) =>
        if ch && (t != s) then .ok [⟨slide_no, element_key, bbox, s, t, md⟩]
        else .ok []

/-- Paragraph list traversal, collecting results in document order. -/
def runParagraphs (E : RegexEngine) (ordered : List Action) (slide_no : Int)
    (element_key : String) (bbox : Option String) :
    List Paragraph → Except PyErr (List RuleActionResult)
  | [] => .ok []
  | p :: ps =>
    match runParagraph E ordered slide_no element_key bbox p with
    | .error e => .error e
    | .ok r =>
      match runParagraphs E ordered slide_no element_key bbox ps with
      | .error e => .error e
      | .ok rs => .ok (r ++ rs)

/-- Processing of one element (lines 429–438): only textbox elements with a
truthy key are edit targets. -/
def runElement (E : RegexEngine) (ordered : List Action) (slide_no : Int)
    (el : Element) : Except PyErr (List RuleActionResult) :=
  if el.type ≠ some "textbox" then .ok []
  else
    match el.key with
    | none => .ok []
    | some k =>
      if k = "" then .ok []
      else runParagraphs E ordered slide_no k el.bbox el.paragraphs

/-- Element list traversal. -/
def runElements (E : RegexEngine) (ordered : List Action) (slide_no : Int) :
    List Element → Except PyErr (List RuleActionResult)
  | [] => .ok []
  | el :: els =>
    match runElement E ordered slide_no el with
    | .error e => .error e
    | .ok r =>
      match runElements E ordered slide_no els with
      | .error e => .error e
      | .ok rs => .ok (r ++ rs)

/-- Processing of one slide (lines 419–426): skip slides whose `"index"` is
missing or not coercible; `slide_no = int(index) + 1`. -/
def runSlide (E : RegexEngine) (ordered : List Action) (sl : Slide) :
    Except PyErr (List RuleActionResult) :=
  match sl.index with
  | none => .ok []
  | some none => .ok []
  | some (some i) => runElements E ordered (i + 1) sl.elements

/-- Slide list traversal. -/
def runSlides (E : RegexEngine) (ordered : List Action) :
    List Slide → Except PyErr (List RuleActionResult)
  | [] => .ok []
  | sl :: sls =>
    match runSlide E ordered sl with
    | .error e => .error e
    | .ok r =>
      match runSlides E ordered sls with
      | .error e => .error e
      | .ok rs => .ok (r ++ rs)

/-- Model of `generate_rule_actions` (lines 402–479): empty action lists
short-circuit to no results; otherwise sort and walk the whole deck. -/
def generate_rule_actions (E : RegexEngine) (deck : Deck)
    (actions : List Action) : Except PyErr (List RuleActionResult) :=
  if actions.isEmpty then .ok []
  else runSlides E (sortActions actions) deck.slides

/-!
Embedding of `convert_llm_response_to_actions` (lines 268–399).  Confidence
values (Python floats) are modelled as rationals; the metadata dicts built
for each action are opaque payloads, modelled by their `action_category`
tag.
-/

/-- One entry of `paragraph_lookup` (built in `_extract_slide_summary`,
lines 152–159).  `slide_no` is modelled as optional because the convert
function reads it with `.get`. -/
structure ParagraphInfo where
  paragraph_id : String
  slide_no : Option Int
  text : String
  is_bullet : Bool
deriving DecidableEq, Repr

/-- One `paragraph_rewrites` entry of the LLM response.  String-typed reads
go through `isinstance(..., str)` checks in the source, so non-`str` values
are merged into `none`. -/
structure Rewrite where
  confidence : Option ℚ
  paragraph_id : Option String
  original_text : Option String
  rewritten_text : Option String
deriving DecidableEq, Repr

/-- One `entity_redactions` entry (the `"entity"` key is read with `[...]`,
so it is required). -/
structure EntityRedaction where
  confidence : Option ℚ
  entity : String
  replacement : Option String
deriving DecidableEq, Repr

/-- One `patterns` entry (the `"regex"` key is required). -/
structure PatternRec where
  confidence : Option ℚ
  regex : String
  replacement : Option String
deriving DecidableEq, Repr

/-- The parsed LLM response (each list read with `.get(..., [])`). -/
structure LLMResult where
  entity_redactions : List EntityRedaction
  paragraph_rewrites : List Rewrite
  patterns : List PatternRec
deriving DecidableEq, Repr

/-- Case-sensitive prefix test over character lists (`str.startswith`). -/
def litPre : List Char → List Char → Bool
  | [], _ => true
  | _ :: _, [] => false
  | a :: as, b :: bs => (a == b) && litPre as bs

/-- Action derived from one entity redaction (lines 274–297): dropped below
the 0.85 confidence bar; otherwise a keyword-mode replace action over the
single entity token, with an unscoped (empty, falsy) scope. -/
def entityAction (e : EntityRedaction) : Option Action :=
  if e.confidence.getD 0 < (85 / 100 : ℚ) then none
  else
    some
      { scope := none
        match_ := some ⟨some "keyword", none, none, some [some e.entity]⟩
        replacement := some (e.replacement.getD "[REDACTED]")
        metadata := some "entity_replacement" }

/-- Action derived from one paragraph rewrite (lines 299–372): dropped below
the confidence bar; resolved via `paragraph_id` when it is a known key,
otherwise via a unique exact match of the trimmed `original_text` against
the indexed paragraph texts (zero or several matches reject the rewrite);
then the rewrite must carry a non-blank `rewritten_text` and the resolved
paragraph a non-empty text; bullet paragraphs force a `•` prefix; the action
is an exact-mode replace scoped to the paragraph's slide (unscoped if the
slide number is falsy). -/
def rewriteAction (lookup : List ParagraphInfo) (rw : Rewrite) :
    Option Action :=
  if rw.confidence.getD 0 < (85 / 100 : ℚ) then none
  else
    let byId : Option ParagraphInfo :=
      rw.paragraph_id.bind
        (fun pid => lookup.find? (fun i => i.paragraph_id == pid))
    let resolved : Option ParagraphInfo :=
      match byId with
      | some i => some i
      | none =>
        match rw.original_text with
        | some ot =>
          if pyStrip ot ≠ "" then
            match lookup.filter (fun i => i.text == pyStrip ot) with
            | [m] => some m
            | _ => none
          else none
        | none => none
    match resolved with
    | none => none
    | some info =>
      match rw.rewritten_text with
      | none => none
      | some rt0 =>
        let rt := pyStrip rt0
        if rt = "" then none
        else if info.text = "" then none
        else
          let stripped := pyStripLeftL rt.data
          let rt2 : String :=
            if info.is_bullet && !litPre "•".data stripped then
              if stripped ≠ [] then ⟨"• ".data ++ stripped⟩ else "•"
            else rt
          some
            { scope :=
                match info.slide_no with
                | some n => if n ≠ 0 then some ⟨some ⟨some [some n], none, none⟩⟩ else none
                | none => none
              match_ := some ⟨some "exact", some info.text, none, none⟩
              replacement := some rt2
              metadata := some "paragraph_rewrite" }

/-- Action derived from one pattern (lines 374–397): a regex-mode replace
action, unscoped. -/
def patternAction (p : PatternRec) : Option Action :=
  if p.confidence.getD 0 < (85 / 100 : ℚ) then none
  else
    some
      { scope := none
        match_ := some ⟨some "regex", none, some p.regex, none⟩
        replacement := some (p.replacement.getD "[REDACTED]")
        metadata := some "pattern_match" }

/-- Model of `convert_llm_response_to_actions`: the three sections append
their actions in order (entities, then rewrites, then patterns). -/
def convert_llm_response_to_actions (r : LLMResult)
    (lookup : List ParagraphInfo) : List Action :=
  r.entity_redactions.filterMap entityAction ++
    r.paragraph_rewrites.filterMap (rewriteAction lookup) ++
    r.patterns.filterMap patternAction

/-- Concrete engine used by the closed witnesses: every pattern compiles,
search is case-insensitive literal search, and substitution returns the
subject unchanged. -/
def idSubEngine : RegexEngine :=
  ⟨fun _ => true, fun p t => ciSearch p t, fun _ _ t => some t⟩

/-!
Fixtures: concrete actions, decks and lookups used by the closed witnesses
and counterexamples below.
-/

/-- Exact-mode action used by witnesses. -/
def wExactAction : Action :=
  ⟨none, some ⟨some "exact", some "abc", none, none⟩, some "X", some "m"⟩

/-- Keyword-mode action used by witnesses (as an ignored tail action). -/
def wKeywordAction : Action :=
  ⟨none, some ⟨some "keyword", none, none, some [some "zz"]⟩, some "Y", none⟩

/-- Regex-mode action used by witnesses. -/
def wRegexAction : Action :=
  ⟨none, some ⟨some "regex", none, some "x", none⟩, some "R", none⟩

/-- Action with an unknown match mode, used by the C10 witness. -/
def wFancyAction : Action :=
  ⟨none, some ⟨some "FANCY", none, none, none⟩, none, none⟩

/-- Keyword action whose replacement is an invalid `re.sub` template
(`\1` refers to a capture group the escaped-literal pattern does not have):
the C3 failing input. -/
def c3BadAction : Action :=
  ⟨none, some ⟨none, none, none, some [some "a"]⟩, some "\\1", none⟩

/-- One-slide, one-paragraph deck with text `"abc"`. -/
def c3Deck : Deck :=
  ⟨[⟨some (some 0), [⟨some "textbox", some "k", none, [⟨some "abc"⟩]⟩]⟩]⟩

/-- Keyword action replacing `"ab"` by `"a"`: its replacement does not
contain the token, yet substitution can rebuild the token at a junction. -/
def c8Action : Action :=
  ⟨none, some ⟨some "keyword", none, none, some [some "ab"]⟩, some "a", none⟩

/-- First-run input deck for the C8 counterexample (text `"abb"`). -/
def c8Deck1 : Deck :=
  ⟨[⟨some (some 0), [⟨some "textbox", some "k", none, [⟨some "abb"⟩]⟩]⟩]⟩

/-- Second-run input deck: `c8Deck1` with the paragraph text replaced by the
first run's output `"ab"`. -/
def c8Deck2 : Deck :=
  ⟨[⟨some (some 0), [⟨some "textbox", some "k", none, [⟨some "ab"⟩]⟩]⟩]⟩

/-- Deck used by the C8 amended-claim witness (text `"xy"`, which contains
no occurrence of the token `"ab"`). -/
def wC8Deck : Deck :=
  ⟨[⟨some (some 0), [⟨some "textbox", some "k", none, [⟨some "xy"⟩]⟩]⟩]⟩

/-- Paragraph lookup with a single indexed paragraph of text `"abc"`. -/
def c7CexLookup : List ParagraphInfo := [⟨"S1-P1", some 1, "abc", false⟩]

/-- Engine for the C6 counterexample, consistent with what CPython does on
the pattern `" "`: the single-space pattern compiles under `re.IGNORECASE`,
its search finds the literal space in `"a b"`, and `sub` replaces every
match with `"R"`, yielding `"aRb"`. -/
def c6CexEngine : RegexEngine :=
  ⟨fun _ => true, fun p t => ciSearch p t, fun _ _ _ => some "aRb"⟩

/-- Regex-mode action with a whitespace-only pattern and replacement
`"R"`. -/
def c6CexAction : Action :=
  ⟨none, some ⟨some "regex", none, some " ", none⟩, some "R", none⟩

/-!
Shared helper lemmas.
-/

/-- An action's membership in the sorted list implies membership in the
input list. -/
theorem mem_of_mem_sortActions {a : Action} {l : List Action}
    (h : a ∈ sortActions l) : a ∈ l := by
  simp only [sortActions, List.mem_append, List.mem_filter] at h
  rcases h with (h | h) | h <;> exact h.1

/-- Every action priority is 0, 1 or 2. -/
theorem action_priority_lt_three (a : Action) : action_priority a < 3 := by
  unfold action_priority
  split
  · omega
  · split <;> omega

/-- The two mode readers agree on being `"exact"`: `applyMode` defaults a
missing / empty mode to `"keyword"` while `priMode` defaults it to `""`, and
neither default lower-cases to `"exact"`. -/
theorem applyMode_exact_iff (a : Action) :
    applyMode (a.match_.getD emptyMatch) = "exact" ↔ priMode a = "exact" := by
  unfold applyMode priMode
  cases h : (a.match_.getD emptyMatch).mode with
  | none =>
    simp only [h]
    decide
  | some s =>
    by_cases hs : s = ""
    · subst hs; simp; decide
    · simp [hs]

/-- The changed flag of `applyOrdered` never resets once set. -/
theorem applyOrdered_true_mono (E : RegexEngine) (n : Int) :
    ∀ (l : List Action) (t : String) (md : Option String)
      (t' : String) (ch' : Bool) (md' : Option String),
      applyOrdered E n l t true md = .ok (t', ch', md') → ch' = true := by
  intro l
  induction l with
  | nil =>
    intro t md t' ch' md' h
    simp only [applyOrdered, Except.ok.injEq, Prod.mk.injEq] at h
    exact h.2.1.symm
  | cons a rest ih =>
    intro t md t' ch' md' h
    simp only [applyOrdered] at h
    split at h
    · split at h
      · exact absurd h (by simp)
      · split at h
        · simp only [Except.ok.injEq, Prod.mk.injEq] at h
          exact h.2.1.symm
        · exact ih _ _ _ _ _ h
      · exact ih _ _ _ _ _ h
    · exact ih _ _ _ _ _ h

/-- If the fold reports no change, the text and metadata are untouched and
the incoming flag was already false. -/
theorem applyOrdered_false_eq (E : RegexEngine) (n : Int) :
    ∀ (l : List Action) (t : String) (ch : Bool) (md : Option String)
      (t' : String) (md' : Option String),
      applyOrdered E n l t ch md = .ok (t', false, md') →
      t' = t ∧ md' = md ∧ ch = false := by
  intro l
  induction l with
  | nil =>
    intro t ch md t' md' h
    simp only [applyOrdered, Except.ok.injEq, Prod.mk.injEq] at h
    exact ⟨h.1.symm, h.2.2.symm, h.2.1⟩
  | cons a rest ih =>
    intro t ch md t' md' h
    simp only [applyOrdered] at h
    split at h
    · split at h
      · exact absurd h (by simp)
      · split at h
        · simp only [Except.ok.injEq, Prod.mk.injEq] at h
          exact absurd h.2.1.symm (by simp)
        · exact absurd (applyOrdered_true_mono E n _ _ _ _ _ _ h) (by simp)
      · exact ih _ _ _ _ _ h
    · exact ih _ _ _ _ _ h

/-- A keyword pass over tokens none of which occurs in the current text
leaves text and flag untouched. -/
theorem keywordPass_no_hit (repl : String) :
    ∀ (toks : List String) (cur : String) (ch : Bool),
      (∀ tok ∈ toks, ciSearch tok cur = false) →
      keywordPass repl toks cur ch = .ok (cur, ch) := by
  intro toks
  induction toks with
  | nil => intro cur ch _; rfl
  | cons tok rest ih =>
    intro cur ch h
    have htok := h tok (by simp)
    simp only [keywordPass, htok]
    simp only [Bool.false_eq_true, if_false]
    exact ih cur ch (fun tk hk => h tk (by simp [hk]))

/-!
Claim theorems.
-/

/-- C3 (code bug): the claim says no exception escapes `apply_text_action`
or the `generate_rule_actions` traversal, and indeed the regex branch wraps
its work in `try/except re.error` — but the keyword branch calls
`regex.sub(replacement, ...)` with no `try`, and an invalid replacement
template such as `"\1"` (a group reference against the zero-group pattern
`re.escape(token)`) makes CPython raise `re.error: invalid group reference`
out of `apply_text_action` and hence out of the whole traversal.  This
theorem evaluates the model at the failing input: text `"abc"`, keyword
action with token `"a"` and replacement `"\1"`. -/
theorem c3_keyword_template_raises :
    apply_text_action idSubEngine "abc" c3BadAction =
        .error (.reError "invalid group reference") ∧
    generate_rule_actions idSubEngine c3Deck [c3BadAction] =
        .error (.reError "invalid group reference") :=
  ⟨rfl, rfl⟩

/-- C4: for a range-form scope (no slide list, at least one of `from` / `to`
present), `slide_in_scope` is true iff `from ≤ slide_no ≤ to`, where a
missing or non-coercible `from` defaults to 1 and a missing or
non-coercible `to` defaults to the tested slide number. -/
theorem c4_range_scope (n : Int) (f t : Option (Option Int))
    (h : f ≠ none ∨ t ≠ none) :
    slide_in_scope (some ⟨some ⟨none, f, t⟩⟩) n = true ↔
      (f.getD none).getD 1 ≤ n ∧ n ≤ (t.getD none).getD n := by
  have hb : (decide (f ≠ none) || decide (t ≠ none)) = true := by
    rcases h with h | h <;> simp [h]
  simp only [slide_in_scope, hb, if_true]
  split
  · next hlt =>
    simp only [Bool.false_eq_true, false_iff]
    simp only [decide_eq_true_eq, Bool.or_eq_true] at hlt
    omega
  · next hge =>
    simp only [true_iff]
    simp only [decide_eq_true_eq, Bool.or_eq_true, not_or] at hge
    omega

/-- C4 witness: a scope `{from: 5}` with `to` omitted matches slide 7. -/
theorem c4_range_scope_witness :
    slide_in_scope (some ⟨some ⟨none, some (some 5), none⟩⟩) 7 = true :=
  (c4_range_scope 7 (some (some 5)) none (Or.inl (by simp))).mpr (by decide)

/-- C5 counterexample: the claim says that a non-empty slide list whose
entries are all non-coercible makes `slide_in_scope` false for any slide
number, but the source only takes the membership branch when the
*normalised* list is non-empty; an all-non-coercible list falls through to
the (absent) range check and the scope matches.  Here the raw list `["x"]`
(one non-coercible entry, modelled as `none`) is non-empty, its coerced
form is empty, slide 1 is not a member — and the function returns true. -/
theorem c5_counterexample :
    ([none] : List (Option Int)) ≠ [] ∧
    ([none] : List (Option Int)).filterMap id = [] ∧
    slide_in_scope (some ⟨some ⟨some [none], none, none⟩⟩) 1 = true :=
  ⟨by simp, rfl, rfl⟩

/-- C5 (amended): for a scope whose slide list is non-empty *and coerces to
a non-empty integer list*, `slide_in_scope` is true iff the slide number is
a member of the coerced list (any `from`/`to` fields are ignored); when
every entry of a non-empty list is non-coercible, the list is ignored and
the scope falls through to the range rules. -/
theorem c5_list_scope (n : Int) (entries : List (Option Int))
    (f t : Option (Option Int)) (hne : entries ≠ [])
    (hco : entries.filterMap id ≠ []) :
    slide_in_scope (some ⟨some ⟨some entries, f, t⟩⟩) n = true ↔
      n ∈ entries.filterMap id := by
  have hlen : entries.length > 0 := List.length_pos.mpr hne
  simp only [slide_in_scope, hlen, if_true]
  by_cases hmem : n ∈ entries.filterMap id
  · have hcon : (entries.filterMap id).contains n = true := by
      simpa using hmem
    simp [hco, hcon, hmem]
  · have hcon : (entries.filterMap id).contains n = false := by
      simpa using hmem
    simp [hco, hcon, hmem]

/-- C5 amended witness: slide 3 matches the list `[3]`. -/
theorem c5_list_scope_witness :
    slide_in_scope (some ⟨some ⟨some [some 3], none, none⟩⟩) 3 = true :=
  (c5_list_scope 3 [some 3] none none (by simp) (by simp)).mpr (by decide)

/-- C9: determinism — the embedding of `generate_rule_actions` is a pure
function of the engine, deck and ordered action list (the source touches no
state other than logging, and the only randomness in the module lives in
`extract_deck_samples`, outside this function), so two runs on the same
inputs produce the same ordered result list. -/
theorem c9_determinism (E : RegexEngine) (deck : Deck) (acts : List Action)
    (r1 r2 : Except PyErr (List RuleActionResult))
    (h1 : generate_rule_actions E deck acts = r1)
    (h2 : generate_rule_actions E deck acts = r2) : r1 = r2 :=
  h1 ▸ h2

/-- C9 witness: two runs on a concrete deck and action list agree. -/
theorem c9_determinism_witness :
    generate_rule_actions idSubEngine c3Deck [wExactAction] =
      .ok [⟨1, "k", none, "abc", "X", some "m"⟩] :=
  c9_determinism idSubEngine c3Deck [wExactAction] _
    (.ok [⟨1, "k", none, "abc", "X", some "m"⟩]) rfl rfl

/-- C10: an action whose effective mode (missing or falsy mode defaults to
`"keyword"`, then lower-cased) is neither `"exact"` nor `"regex"` is
processed by the keyword branch over its token list, and a missing (or
falsy) token list yields no change and no error; unknown modes are never
rejected. -/
theorem c10_unknown_mode_keyword (E : RegexEngine) (text : String)
    (a : Action)
    (hx : applyMode (a.match_.getD emptyMatch) ≠ "exact")
    (hr : applyMode (a.match_.getD emptyMatch) ≠ "regex") :
    apply_text_action E text a =
        keywordPass (effReplacement a) (effTokens (a.match_.getD emptyMatch))
          text false ∧
    ((a.match_.getD emptyMatch).tokens = none →
        apply_text_action E text a = .ok (text, false)) := by
  constructor
  · simp only [apply_text_action, hx, hr, if_false]
  · intro htok
    simp only [apply_text_action, hx, hr, if_false, effTokens, htok,
      Option.getD_none, List.filterMap_nil, keywordPass]

/-- C10 witness: mode `"FANCY"` with no token list changes nothing. -/
theorem c10_unknown_mode_keyword_witness :
    apply_text_action idSubEngine "t" wFancyAction = .ok ("t", false) :=
  (c10_unknown_mode_keyword idSubEngine "t" wFancyAction (by decide)
      (by decide)).2 rfl

/-- C6 counterexample: the claim says every regex-mode action has its
pattern compiled and, on compile success, all matches substituted with
`changed` true iff the result differs.  The whitespace-only pattern `" "`
compiles in CPython and matches `"a b"` (the engine here returns exactly
that behaviour: compile succeeds, search hits, substitution gives `"aRb"`),
so the claim demands the result `("aRb", true)` — but the source's guard
`isinstance(pattern, str) and pattern.strip()` (line 540) skips the pattern
before ever compiling it, and the code returns `("a b", false)`. -/
theorem c6_counterexample :
    applyMode (c6CexAction.match_.getD emptyMatch) = "regex" ∧
    (c6CexAction.match_.getD emptyMatch).pattern = some " " ∧
    c6CexEngine.compileOk " " = true ∧
    c6CexEngine.search " " "a b" = true ∧
    c6CexEngine.sub " " (effReplacement c6CexAction) "a b" = some "aRb" ∧
    ("aRb" : String) ≠ "a b" ∧
    apply_text_action c6CexEngine "a b" c6CexAction = .ok ("a b", false) :=
  ⟨rfl, rfl, rfl, rfl, rfl, by decide, rfl⟩

/-- C6 (amended): for every regex-mode action, the branch never raises
(every outcome is `.ok`).  A missing or blank (whitespace-only) pattern is
skipped by the `isinstance`/`strip` guard without being compiled, returning
the text unchanged with `changed = false`.  For a present, non-blank
pattern: a failed compile returns the text unchanged with
`changed = false`; an `re.error` raised during substitution is caught and
likewise returns the text unchanged with `changed = false`; and when the
substitution completes, the result is the engine's substitution of all
matches, with `changed` true iff it differs from the input (the last
hypothesis states that the engine's `sub` is the identity when `search`
misses, which is how `re.Pattern.sub` behaves). -/
theorem c6_regex_mode (E : RegexEngine) (text : String) (a : Action)
    (hm : applyMode (a.match_.getD emptyMatch) = "regex") :
    (∃ res, apply_text_action E text a = .ok res) ∧
    (∀ p, (a.match_.getD emptyMatch).pattern = some p → pyStrip p ≠ "" →
      (E.compileOk p = false → apply_text_action E text a = .ok (text, false)) ∧
      (E.sub p (effReplacement a) text = none →
        apply_text_action E text a = .ok (text, false)) ∧
      (∀ u, E.compileOk p = true → E.sub p (effReplacement a) text = some u →
        (E.search p text = false → u = text) →
        apply_text_action E text a = .ok (u, u != text))) ∧
    (((a.match_.getD emptyMatch).pattern = none ∨
        ∃ p, (a.match_.getD emptyMatch).pattern = some p ∧ pyStrip p = "") →
      apply_text_action E text a = .ok (text, false)) := by
  have hx : applyMode (a.match_.getD emptyMatch) ≠ "exact" := by
    rw [hm]; decide
  have hred : ∀ p, (a.match_.getD emptyMatch).pattern = some p →
      pyStrip p ≠ "" →
      apply_text_action E text a =
        (if E.compileOk p = true then
          if E.search p text = true then
            match E.sub p (effReplacement a) text with
            | some u => .ok (u, u != text)
            | none => .ok (text, false)
          else .ok (text, false)
        else .ok (text, false)) := by
    intro p hp hblank
    simp only [apply_text_action, hp]
    rw [if_neg hx, if_pos hm, if_pos hblank]
  have hskip : ((a.match_.getD emptyMatch).pattern = none ∨
      ∃ p, (a.match_.getD emptyMatch).pattern = some p ∧ pyStrip p = "") →
      apply_text_action E text a = .ok (text, false) := by
    rintro (hp | ⟨p, hp, hblank⟩)
    · simp only [apply_text_action, hp]
      rw [if_neg hx, if_pos hm]
    · simp only [apply_text_action, hp]
      rw [if_neg hx, if_pos hm, if_neg (fun hcon => hcon hblank)]
  refine ⟨?_, ?_, hskip⟩
  · cases hp : (a.match_.getD emptyMatch).pattern with
    | none => exact ⟨(text, false), hskip (Or.inl hp)⟩
    | some p =>
      by_cases hblank : pyStrip p = ""
      · exact ⟨(text, false), hskip (Or.inr ⟨p, hp, hblank⟩)⟩
      · rw [hred p hp hblank]
        by_cases hc : E.compileOk p = true
        · by_cases hs : E.search p text = true
          · cases hsub : E.sub p (effReplacement a) text with
            | none => exact ⟨(text, false), by simp [hc, hs, hsub]⟩
            | some u => exact ⟨(u, u != text), by simp [hc, hs, hsub]⟩
          · exact ⟨(text, false), by simp [hc, hs]⟩
        · exact ⟨(text, false), by simp [hc]⟩
  · intro p hp hblank
    refine ⟨?_, ?_, ?_⟩
    · intro hc
      rw [hred p hp hblank]
      simp [hc]
    · intro hsub
      rw [hred p hp hblank]
      by_cases hc : E.compileOk p = true
      · by_cases hs : E.search p text = true
        · simp [hc, hs, hsub]
        · have hs2 : E.search p text = false := by
            cases hse : E.search p text
            · rfl
            · exact absurd hse hs
          simp [hc, hs2]
      · simp [hc]
    · intro u hc hsub hid
      rw [hred p hp hblank]
      by_cases hs : E.search p text = true
      · simp [hc, hs, hsub]
      · have hs2 : E.search p text = false := by
          cases hse : E.search p text
          · rfl
          · exact absurd hse hs
        have hu := hid hs2
        subst hu
        simp [hc, hs2]

/-- C6 amended witness: a present, non-blank, compiling pattern whose
engine substitution returns the text unchanged reports `changed = false`. -/
theorem c6_regex_mode_witness :
    apply_text_action idSubEngine "abc" wRegexAction = .ok ("abc", false) := by
  have h := ((c6_regex_mode idSubEngine "abc" wRegexAction rfl).2.1 "x" rfl
      (by decide)).2.2 "abc" rfl rfl (fun _ => rfl)
  simpa using h

/-- C2: a paragraph (with truthy string text) contributes a result record
iff the final text of the per-paragraph fold differs from the original
text; the record then carries the original and final texts and the last
applied action's metadata.  In particular, a paragraph where some action
reported a change but whose final text equals the original yields no
record: the emission test `changed and new_text != original_text` requires
an actual difference, and conversely any difference forces `changed` (the
fold only updates the text on a reported change). -/
theorem c2_emission_iff (E : RegexEngine) (ordered : List Action) (n : Int)
    (key : String) (bbox : Option String) (s t : String) (ch : Bool)
    (md : Option String) (hs : s ≠ "")
    (h : applyOrdered E n ordered s false none = .ok (t, ch, md)) :
    runParagraph E ordered n key bbox ⟨some s⟩ =
      .ok (if t ≠ s then [⟨n, key, bbox, s, t, md⟩] else []) := by
  simp only [runParagraph]
  rw [if_neg hs, h]
  by_cases ht : t = s
  · subst ht
    simp
  · have hch : ch = true := by
      cases hc2 : ch
      · rcases applyOrdered_false_eq E n ordered s false none t md
          (hc2 ▸ h) with ⟨h1, -, -⟩
        exact absurd h1 ht
      · rfl
    subst hch
    have hbne : (t != s) = true := by simpa using ht
    simp [hbne, ht]

/-- C2 witness: an exact-mode rewrite of `"abc"` to `"X"` emits exactly one
record with the original and new texts. -/
theorem c2_emission_iff_witness :
    runParagraph idSubEngine [wExactAction] 1 "k" none ⟨some "abc"⟩ =
      .ok [⟨1, "k", none, "abc", "X", some "m"⟩] := by
  have h := c2_emission_iff idSubEngine [wExactAction] 1 "k" none "abc" "X"
    true (some "m") (by decide) rfl
  simpa using h

/-- C7 counterexample: the claim says an action is produced for a raw-text
rewrite iff exactly one indexed paragraph matches the trimmed text.  Here
the lookup contains exactly one paragraph with text `"abc"` and the rewrite
supplies `original_text = "abc"` (no paragraph id, confidence 1), so the
claim demands an action — but the rewrite has no `rewritten_text`, and the
source skips it after resolution succeeds. -/
theorem c7_counterexample :
    (c7CexLookup.filter (fun i => i.text == pyStrip "abc")).length = 1 ∧
    pyStrip "abc" ≠ "" ∧
    rewriteAction c7CexLookup ⟨some 1, none, some "abc", none⟩ = none := by
  refine ⟨rfl, by decide, ?_⟩
  unfold rewriteAction
  rw [if_neg (by norm_num)]
  rfl

/-- C7 (amended): for a rewrite whose `paragraph_id` does not resolve and
which supplies a raw `original_text` with non-blank trim, an action is
produced iff the rewrite passes the 0.85 confidence bar, exactly one
indexed paragraph's stored text equals the trimmed supplied text, and the
rewrite carries a `rewritten_text` that is non-blank after trimming; zero
or several raw-text matches always reject the rewrite. -/
theorem c7_raw_text_resolution (lookup : List ParagraphInfo) (rwr : Rewrite)
    (ot : String)
    (hid : rwr.paragraph_id.bind
        (fun pid => lookup.find? (fun i => i.paragraph_id == pid)) = none)
    (hot : rwr.original_text = some ot)
    (hne : pyStrip ot ≠ "") :
    (rewriteAction lookup rwr).isSome = true ↔
      (¬ rwr.confidence.getD 0 < (85 / 100 : ℚ) ∧
       (lookup.filter (fun i => i.text == pyStrip ot)).length = 1 ∧
       ∃ rt, rwr.rewritten_text = some rt ∧ pyStrip rt ≠ "") := by
  unfold rewriteAction
  by_cases hconf : rwr.confidence.getD 0 < (85 / 100 : ℚ)
  · simp [hconf]
  · rw [if_neg hconf]
    simp only [hid, hot]
    rw [if_pos hne]
    cases hfil : lookup.filter (fun i => i.text == pyStrip ot) with
    | nil => simp [hfil, hconf]
    | cons m tail =>
      cases tail with
      | nil =>
        have hmem : m ∈ lookup.filter (fun i => i.text == pyStrip ot) := by
          rw [hfil]; exact List.mem_singleton_self m
        have hmtext : m.text = pyStrip ot := by
          have := (List.mem_filter.mp hmem).2
          simpa using this
        have hmne : m.text ≠ "" := by rw [hmtext]; exact hne
        cases hrt : rwr.rewritten_text with
        | none => simp [hrt, hconf]
        | some rt0 =>
          by_cases hblank : pyStrip rt0 = ""
          · simp [hrt, hblank, hconf]
          · simp [hrt, hblank, hconf, hmne]
      | cons m2 tail2 => simp [hfil, hconf]

/-- C7 amended witness: a unique raw-text match with confidence 1 and a
non-blank rewritten text produces an action. -/
theorem c7_raw_text_resolution_witness :
    (rewriteAction c7CexLookup
        ⟨some 1, none, some "abc", some "xyz"⟩).isSome = true := by
  refine (c7_raw_text_resolution c7CexLookup
      ⟨some 1, none, some "abc", some "xyz"⟩ "abc" rfl rfl (by decide)).mpr
    ⟨by norm_num, rfl, "xyz", rfl, by decide⟩

/-- C1: action ordering and precedence.  The sorted action list is ordered
by non-decreasing priority (exact 0 < regex 1 < keyword 2) and is stable
(for every priority class, the sorted list restricted to that class is the
input list restricted to it, in input order — which for a stable sort on a
three-valued key characterises the result uniquely and in particular makes
it a permutation of the input).  `generate_rule_actions` walks the deck
with exactly this sorted list.  Within a paragraph, an in-scope action that
reports a change and whose mode string is `"exact"` makes the fold return
immediately — the remaining actions are never evaluated — while a changing
action of any other mode lets the fold continue on the updated text with
the changed flag set and that action's metadata recorded. -/
theorem c1_ordering_and_precedence :
    (∀ acts : List Action,
        (sortActions acts).Pairwise
          (fun a b => action_priority a ≤ action_priority b) ∧
        ∀ k : Nat,
          (sortActions acts).filter (fun a => action_priority a == k) =
            acts.filter (fun a => action_priority a == k)) ∧
    (∀ (E : RegexEngine) (deck : Deck) (acts : List Action),
        generate_rule_actions E deck acts =
          if acts.isEmpty then .ok []
          else runSlides E (sortActions acts) deck.slides) ∧
    (∀ (E : RegexEngine) (n : Int) (a : Action) (rest : List Action)
        (t : String) (ch : Bool) (md : Option String) (u : String),
        slide_in_scope a.scope n = true →
        apply_text_action E t a = .ok (u, true) →
        priMode a = "exact" →
        applyOrdered E n (a :: rest) t ch md = .ok (u, true, a.metadata)) ∧
    (∀ (E : RegexEngine) (n : Int) (a : Action) (rest : List Action)
        (t : String) (ch : Bool) (md : Option String) (u : String),
        slide_in_scope a.scope n = true →
        apply_text_action E t a = .ok (u, true) →
        priMode a ≠ "exact" →
        applyOrdered E n (a :: rest) t ch md =
          applyOrdered E n rest u true a.metadata) := by
  have hmemf : ∀ (l : List Action) (k : Nat) (x : Action),
      x ∈ l.filter (fun a => action_priority a == k) →
      action_priority x = k := by
    intro l k x hx
    simpa using (List.mem_filter.mp hx).2
  refine ⟨?_, ?_, ?_, ?_⟩
  · intro acts
    constructor
    · unfold sortActions
      rw [List.pairwise_append]
      refine ⟨?_, ?_, ?_⟩
      · rw [List.pairwise_append]
        refine ⟨?_, ?_, ?_⟩
        · exact List.pairwise_of_forall_mem_list
            (fun a ha b hb => by
              rw [hmemf acts 0 a ha, hmemf acts 0 b hb])
        · exact List.pairwise_of_forall_mem_list
            (fun a ha b hb => by
              rw [hmemf acts 1 a ha, hmemf acts 1 b hb])
        · intro a ha b hb
          rw [hmemf acts 0 a ha, hmemf acts 1 b hb]
          omega
      · exact List.pairwise_of_forall_mem_list
          (fun a ha b hb => by
            rw [hmemf acts 2 a ha, hmemf acts 2 b hb])
      · intro a ha b hb
        rw [hmemf acts 2 b hb]
        rcases List.mem_append.mp ha with ha | ha
        · rw [hmemf acts 0 a ha]; omega
        · rw [hmemf acts 1 a ha]; omega
    · intro k
      have hff : ∀ j : Nat,
          acts.filter
              (fun a => (action_priority a == k) && (action_priority a == j)) =
            if k = j then acts.filter (fun a => action_priority a == k)
            else [] := by
        intro j
        by_cases hkj : k = j
        · subst hkj
          rw [if_pos rfl]
          exact List.filter_congr (fun x _ => by simp [Bool.and_self])
        · rw [if_neg hkj]
          refine List.filter_eq_nil_iff.mpr (fun a _ => ?_)
          simp only [Bool.and_eq_true, beq_iff_eq, not_and]
          intro h1 h2
          exact hkj (h1.symm.trans h2)
      unfold sortActions
      rw [List.filter_append, List.filter_append, List.filter_filter,
        List.filter_filter, List.filter_filter, hff 0, hff 1, hff 2]
      have h3 := action_priority_lt_three
      by_cases h0 : k = 0
      · subst h0; simp
      · by_cases h1 : k = 1
        · subst h1; simp
        · by_cases h2 : k = 2
          · subst h2; simp
          · rw [if_neg h0, if_neg h1, if_neg h2]
            have : acts.filter (fun a => action_priority a == k) = [] := by
              refine List.filter_eq_nil_iff.mpr (fun a _ => ?_)
              simp only [beq_iff_eq]
              have := h3 a
              omega
            simp [this]
  · intro E deck acts
    rfl
  · intro E n a rest t ch md u hscope happ hex
    simp only [applyOrdered, hscope, if_true, happ, hex]
  · intro E n a rest t ch md u hscope happ hex
    simp only [applyOrdered, hscope, if_true, happ, hex, if_false]

/-- C1 witness: an in-scope exact action that rewrites `"abc"` to `"X"`
short-circuits the fold, ignoring the trailing keyword action. -/
theorem c1_ordering_and_precedence_witness :
    applyOrdered idSubEngine 1 [wExactAction, wKeywordAction] "abc" false
        none = .ok ("X", true, some "m") :=
  c1_ordering_and_precedence.2.2.1 idSubEngine 1 wExactAction
    [wKeywordAction] "abc" false none "X" rfl rfl rfl

/-!
C8: idempotence of exact/keyword action sets.
-/

/-- Texts of all paragraphs of a deck (the values the per-paragraph fold can
start from). -/
def deckTexts (d : Deck) : List String :=
  d.slides.flatMap
    (fun sl => sl.elements.flatMap
      (fun el => el.paragraphs.filterMap (fun p => p.text)))

/-- Conditions under which an action leaves the text `t` alone (or rewrites
it to itself): it is not regex-mode; none of its keyword tokens occurs in
`t`; and if it is exact-mode with a matching trimmed target, its effective
replacement is exactly `t`. -/
def SafeAt (a : Action) (t : String) : Prop :=
  applyMode (a.match_.getD emptyMatch) ≠ "regex" ∧
  (∀ tok ∈ effTokens (a.match_.getD emptyMatch), ciSearch tok t = false) ∧
  (applyMode (a.match_.getD emptyMatch) = "exact" →
    ∀ et, (a.match_.getD emptyMatch).text = some et → et ≠ "" →
      pyStrip t = pyStrip et → effReplacement a = t)

/-- A safe action evaluates to `(t, b)` on `t`, with `b = true` only for an
exact-mode action (whose replacement was `t` itself). -/
theorem apply_safe (E : RegexEngine) (a : Action) (t : String)
    (h : SafeAt a t) :
    ∃ b, apply_text_action E t a = .ok (t, b) ∧
      (b = true → priMode a = "exact") := by
  obtain ⟨hreg, htok, hex⟩ := h
  by_cases hm : applyMode (a.match_.getD emptyMatch) = "exact"
  · simp only [apply_text_action]
    rw [if_pos hm]
    cases htext : (a.match_.getD emptyMatch).text with
    | none => exact ⟨false, rfl, by simp⟩
    | some et =>
      by_cases hcond : (et ≠ "" && (pyStrip t == pyStrip et)) = true
      · have h1 : et ≠ "" := by
          have := (Bool.and_eq_true ..).mp hcond
          simpa using this.1
        have h2 : pyStrip t = pyStrip et := by
          have := (Bool.and_eq_true ..).mp hcond
          simpa using this.2
        have hrep := hex hm et htext h1 h2
        exact ⟨true, by simp [hrep]; exact ⟨h1, h2⟩,
          fun _ => (applyMode_exact_iff a).mp hm⟩
      · refine ⟨false, ?_, by simp⟩
        simp only [] at hcond
        simp at hcond ⊢
        tauto
  · refine ⟨false, ?_, by simp⟩
    simp only [apply_text_action]
    rw [if_neg hm, if_neg hreg]
    exact keywordPass_no_hit _ _ t false htok

/-- The per-paragraph fold over safe actions leaves the text unchanged. -/
theorem applyOrdered_safe (E : RegexEngine) (n : Int) :
    ∀ (l : List Action) (t : String) (ch : Bool) (md : Option String),
      (∀ a ∈ l, SafeAt a t) →
      ∃ ch' md', applyOrdered E n l t ch md = .ok (t, ch', md') := by
  intro l
  induction l with
  | nil => intro t ch md _; exact ⟨ch, md, rfl⟩
  | cons a rest ih =>
    intro t ch md h
    obtain ⟨b, happ, hbex⟩ := apply_safe E a t (h a (by simp))
    have hrest : ∀ x ∈ rest, SafeAt x t := fun x hx => h x (by simp [hx])
    by_cases hscope : slide_in_scope a.scope n = true
    · cases b with
      | false =>
        obtain ⟨ch', md', hrec⟩ := ih t ch md hrest
        refine ⟨ch', md', ?_⟩
        simp only [applyOrdered, hscope, if_true, happ]
        exact hrec
      | true =>
        have hexact := hbex rfl
        refine ⟨true, a.metadata, ?_⟩
        simp only [applyOrdered, hscope, if_true, happ, hexact]
    · have hscope' : slide_in_scope a.scope n = false := by
        cases h2 : slide_in_scope a.scope n
        · rfl
        · exact absurd h2 hscope
      obtain ⟨ch', md', hrec⟩ := ih t ch md hrest
      refine ⟨ch', md', ?_⟩
      simp only [applyOrdered, hscope', Bool.false_eq_true, if_false]
      exact hrec

/-- A paragraph whose text is safe for every ordered action contributes no
result. -/
theorem runParagraph_safe (E : RegexEngine) (ord : List Action) (n : Int)
    (key : String) (bbox : Option String) (p : Paragraph)
    (h : ∀ s, p.text = some s → ∀ a ∈ ord, SafeAt a s) :
    runParagraph E ord n key bbox p = .ok [] := by
  cases hp : p.text with
  | none => simp [runParagraph, hp]
  | some s =>
    by_cases hs : s = ""
    · simp [runParagraph, hp, hs]
    · obtain ⟨ch', md', hrun⟩ := applyOrdered_safe E n ord s false none
        (h s hp)
      simp only [runParagraph, hp]
      rw [if_neg hs, hrun]
      simp

/-- Lifting of `runParagraph_safe` over a paragraph list. -/
theorem runParagraphs_safe (E : RegexEngine) (ord : List Action) (n : Int)
    (key : String) (bbox : Option String) :
    ∀ ps : List Paragraph,
      (∀ p ∈ ps, ∀ s, p.text = some s → ∀ a ∈ ord, SafeAt a s) →
      runParagraphs E ord n key bbox ps = .ok [] := by
  intro ps
  induction ps with
  | nil => intro _; rfl
  | cons p rest ih =>
    intro h
    have h1 := runParagraph_safe E ord n key bbox p (h p (by simp))
    have h2 := ih (fun q hq => h q (by simp [hq]))
    simp [runParagraphs, h1, h2]

/-- Lifting over one element. -/
theorem runElement_safe (E : RegexEngine) (ord : List Action) (n : Int)
    (el : Element)
    (h : ∀ p ∈ el.paragraphs, ∀ s, p.text = some s →
        ∀ a ∈ ord, SafeAt a s) :
    runElement E ord n el = .ok [] := by
  unfold runElement
  split
  · rfl
  · cases hk : el.key with
    | none => rfl
    | some k =>
      by_cases hke : k = ""
      · simp [hke]
      · simp only [hke, if_false]
        exact runParagraphs_safe E ord n k el.bbox el.paragraphs h

/-- Lifting over an element list. -/
theorem runElements_safe (E : RegexEngine) (ord : List Action) (n : Int) :
    ∀ els : List Element,
      (∀ el ∈ els, ∀ p ∈ el.paragraphs, ∀ s, p.text = some s →
          ∀ a ∈ ord, SafeAt a s) →
      runElements E ord n els = .ok [] := by
  intro els
  induction els with
  | nil => intro _; rfl
  | cons el rest ih =>
    intro h
    have h1 := runElement_safe E ord n el (h el (by simp))
    have h2 := ih (fun e he => h e (by simp [he]))
    simp [runElements, h1, h2]

/-- Lifting over one slide. -/
theorem runSlide_safe (E : RegexEngine) (ord : List Action) (sl : Slide)
    (h : ∀ el ∈ sl.elements, ∀ p ∈ el.paragraphs, ∀ s, p.text = some s →
        ∀ a ∈ ord, SafeAt a s) :
    runSlide E ord sl = .ok [] := by
  unfold runSlide
  cases sl.index with
  | none => rfl
  | some oi =>
    cases oi with
    | none => rfl
    | some i => exact runElements_safe E ord (i + 1) sl.elements h

/-- Lifting over the slide list. -/
theorem runSlides_safe (E : RegexEngine) (ord : List Action) :
    ∀ sls : List Slide,
      (∀ sl ∈ sls, ∀ el ∈ sl.elements, ∀ p ∈ el.paragraphs, ∀ s,
          p.text = some s → ∀ a ∈ ord, SafeAt a s) →
      runSlides E ord sls = .ok [] := by
  intro sls
  induction sls with
  | nil => intro _; rfl
  | cons sl rest ih =>
    intro h
    have h1 := runSlide_safe E ord sl (h sl (by simp))
    have h2 := ih (fun s hs => h s (by simp [hs]))
    simp [runSlides, h1, h2]

/-- C8 counterexample: the claim's proviso only asks that no replacement
contain the matched content — here the single keyword action replaces
`"ab"` by `"a"`, and `"a"` does not contain `"ab"` (even case-insensitively).
The first run on the paragraph `"abb"` rewrites it to `"ab"`; the second
run, on the deck with that paragraph text replaced by the first run's
output, still emits a result (`"ab"` → `"a"`), because the substitution
re-created the token at the junction of the replacement and the remaining
text.  The claim demands zero results from the second run. -/
theorem c8_counterexample :
    applyMode (c8Action.match_.getD emptyMatch) = "keyword" ∧
    ciSearch "ab" (effReplacement c8Action) = false ∧
    generate_rule_actions idSubEngine c8Deck1 [c8Action] =
      .ok [⟨1, "k", none, "abb", "ab", none⟩] ∧
    generate_rule_actions idSubEngine c8Deck2 [c8Action] =
      .ok [⟨1, "k", none, "ab", "a", none⟩] ∧
    (Except.ok [(⟨1, "k", none, "ab", "a", none⟩ : RuleActionResult)] :
        Except PyErr (List RuleActionResult)) ≠ .ok [] :=
  ⟨rfl, rfl, rfl, rfl, by simp⟩

/-- C8 (amended): a second run of `generate_rule_actions` produces no
results, provided the second run's input texts are genuinely free of the
matched content: the action set has no regex-mode action, no keyword token
of the set occurs (case-insensitively) in any paragraph text, and any
exact-mode action whose trimmed target matches a paragraph's trimmed text
has that text as its exact replacement (as is the case for the output of a
prior successful run of that action).  Requiring only that replacements not
*contain* the matched content is not enough — see the counterexample. -/
theorem c8_rerun_no_results (E : RegexEngine) (deck : Deck)
    (acts : List Action)
    (h : ∀ a ∈ acts, ∀ t ∈ deckTexts deck, SafeAt a t) :
    generate_rule_actions E deck acts = .ok [] := by
  unfold generate_rule_actions
  by_cases hacts : acts.isEmpty = true
  · simp [hacts]
  · rw [if_neg hacts]
    apply runSlides_safe
    intro sl hsl el hel p hp s hps a ha
    refine h a (mem_of_mem_sortActions ha) s ?_
    simp only [deckTexts, List.mem_flatMap, List.mem_filterMap]
    exact ⟨sl, hsl, el, hel, p, hp, hps⟩

/-- C8 amended witness: the keyword action `"ab"` → `"a"` produces nothing
on a deck whose only paragraph text `"xy"` does not contain the token. -/
theorem c8_rerun_no_results_witness :
    generate_rule_actions idSubEngine wC8Deck [c8Action] = .ok [] := by
  apply c8_rerun_no_results
  intro a ha t ht
  have ha' : a = c8Action := by simpa using ha
  have ht' : t = "xy" := by
    have hdt : deckTexts wC8Deck = ["xy"] := rfl
    rw [hdt] at ht
    simpa using ht
  subst ha'
  subst ht'
  refine ⟨by decide, ?_, fun hex => absurd hex (by decide)⟩
  intro tok htok
  have htok' : tok = "ab" := by
    have : effTokens (c8Action.match_.getD emptyMatch) = ["ab"] := rfl
    rw [this] at htok
    simpa using htok
  subst htok'
  rfl

end Redact
